import Mathlib

set_option autoImplicit false

/-!
Verification development for the Orthanc indexer plugin.

The definitions below are a shallow embedding of the plugin's code:

* `src/Sources/FileMemoryMap.cpp` — the memory-mapped region primitive
  (`computePad`, `paramsOffset`, `paramsLength`, `fileMemoryMapFallback`,
  `mappingDataPosition`);
* `src/Sources/Plugin.cpp` — the directory-scan processing (`processFileEvents`,
  `lookupDeletedFiles`), the storage virtualization callbacks (`storageCreate`,
  `storageRemove`) and DICOM recognition (`computeInstanceId`).

The `IndexerDatabase` and `StorageArea` classes are declared and called by
`Plugin.cpp` but their implementations are not part of the available sources;
their operations are modelled from the specification's registry contract and
are marked `Modelled from the spec:` in their doc comments.

Machine integers (`uintmax_t`) are embedded as `Nat` with an explicit modulus
where the source's unsigned arithmetic can wrap.
-/

/-- The modulus of `uintmax_t` (64-bit): 2^64.  Used where the source's
unsigned arithmetic can wrap around. -/
def UINTMAX : Nat := 18446744073709551616

/-- From `src/Sources/FileMemoryMap.cpp` line 40:
`reserve_for_padding_offset = (alignment - (offset % alignment)) % alignment`. -/
def computePad (alignment offset : Nat) : Nat :=
  (alignment - offset % alignment) % alignment

/-- From `src/Sources/FileMemoryMap.cpp` line 41:
`params.offset = offset - reserve_for_padding_offset`, a `uintmax_t`
subtraction, hence performed modulo 2^64. -/
def paramsOffset (alignment offset : Nat) : Nat :=
  (offset + (UINTMAX - computePad alignment offset)) % UINTMAX

/-- From `src/Sources/FileMemoryMap.cpp` line 42:
`params.length = length + reserve_for_padding_offset` (`uintmax_t`). -/
def paramsLength (alignment offset length : Nat) : Nat :=
  (length + computePad alignment offset) % UINTMAX

/-- File position at which `data()`'s view begins in true-mapping mode
(`src/Sources/FileMemoryMap.cpp` lines 78-83): the real mapping starts at
file position `params.offset` and `data()` returns
`&mapped_data.data()[reserve_for_padding_offset]`, i.e. skips the first
`pad` bytes of the mapping. -/
def mappingDataPosition (alignment offset : Nat) : Nat :=
  (paramsOffset alignment offset + computePad alignment offset) % UINTMAX

/-- State of a `FileMemoryMap` that fell back to the buffered read
(`using_mapping == false`): the clipped length reported by
`readable_length()` and the retained buffer that `data()` points into. -/
structure FallbackRegion where
  data_length : Nat
  buffer : List Nat
deriving DecidableEq, Repr

/-- From `src/Sources/FileMemoryMap.cpp` lines 54-74 (the `catch` branch):
`ReadFile` loads the whole file into `non_mapped_data`; then
`low = &non_mapped_data[0]`, `high = &non_mapped_data[size]`, and when
`length != 0` the code clips `length` against the file size (`length >
non_mapped_data.size()`) and sets `high = &non_mapped_data[length]`;
`data_length = high - low`.  Finally
`non_mapped_data = std::string(non_mapped_data, data_length)` — the
`std::string(const std::string&, size_type pos)` constructor, which keeps the
*suffix* of the file starting at index `data_length` — so the buffer that
`data()` returns is `file.drop data_length`.  The `offset` parameter is never
consulted anywhere in this branch. -/
def fileMemoryMapFallback (file : List Nat) (offset length : Nat) : FallbackRegion :=
  let dl := if length ≠ 0 then (if length > file.length then file.length else length)
            else file.length
  { data_length := dl, buffer := file.drop dl }

/-- C1: the MappedRegion round-trip fails in the buffered-fallback case.  For
the two-byte file `[10, 20]` with `offset = 0 < S = 2` and `length = 1`,
`readable_length()` is `1 = min(length, S - offset)` as the claim demands, but
the bytes reachable through `data()` are `[20]`, not the file's bytes
`[10]` at `[offset, offset + readable_length())`: the fallback branch ignores
`offset` and, through the substring-from-position `std::string` constructor,
retains the wrong part of the file.  Moreover for `offset = 1`, `length = 2`
the reported `readable_length()` is `2`, whereas the claim demands
`min(length, S - offset) = 1`. -/
theorem c1_fallback_serves_wrong_bytes :
    (fileMemoryMapFallback [10, 20] 0 1).data_length = 1 ∧
    Nat.min 1 ([10, 20].length - 0) = 1 ∧
    (fileMemoryMapFallback [10, 20] 0 1).buffer = [20] ∧
    (([10, 20] : List Nat).drop 0).take 1 = [10] ∧
    (fileMemoryMapFallback [10, 20] 0 1).buffer ≠ (([10, 20] : List Nat).drop 0).take 1 ∧
    (fileMemoryMapFallback [10, 20] 1 2).data_length = 2 ∧
    Nat.min 2 ([10, 20].length - 1) = 1 := by
  decide

/-- C3: the alignment rule fails on the code.  The pad is computed as
`(A - offset % A) % A` and the mapping is requested at `offset - pad` with
length `length + pad`, and `data()` does land back on the originally requested
offset (`mappingDataPosition = offset`); but the requested mapping start is
*not* an offset respecting the granularity `A`: with `A = 4096` and
`offset = 4097` the code computes `pad = 4095` and requests the real mapping
to start at byte `2`, which is not a multiple of `4096` (an aligned-down start
would need `pad = offset % A`).  This contradicts the source's own comment
`"offset must be a multiple of alignment"` (FileMemoryMap.cpp line 38). -/
theorem c3_mapping_start_misaligned :
    computePad 4096 4097 = 4095 ∧
    paramsOffset 4096 4097 = 2 ∧
    paramsOffset 4096 4097 % 4096 ≠ 0 ∧
    mappingDataPosition 4096 4097 = 4097 := by
  decide

/-- One record of the file registry (spec §3 `FileRecord`): last-observed
metadata and, iff the file was recognized as a DICOM document, its derived
instance identifier. -/
structure FileRecord where
  modifiedTime : Nat
  size : Nat
  instanceId : Option String
deriving DecidableEq, Repr

/-- The file registry (the `IndexerDatabase` file table), keyed by path. -/
abbrev Registry : Type := List (String × FileRecord)

/-- Modelled from the spec: lookup by `path` in the registry
(`IndexerDatabase`'s implementation is not among the available sources). -/
def lookupRecord (reg : Registry) (path : String) : Option FileRecord :=
  (reg.find? (fun e => e.1 == path)).map (fun e => e.2)

/-- Classification of a scanned file (spec §4.2 `classify`,
`IndexerDatabase::FileStatus`). -/
inductive FileStatus where
  | New
  | Modified
  | Unchanged
deriving DecidableEq, Repr

/-- Modelled from the spec: `IndexerDatabase::LookupFile` (§4.2 `classify`):
absent ⇒ New; present with equal `(modifiedTime, size)` ⇒ Unchanged; present
with either differing ⇒ Modified.  Also yields the old record's
`instanceId` (the `oldInstanceId` out-parameter of the source). -/
def lookupFile (reg : Registry) (path : String) (time size : Nat) :
    FileStatus × Option String :=
  match lookupRecord reg path with
  | none => (FileStatus.New, none)
  | some r =>
    if r.modifiedTime = time ∧ r.size = size then (FileStatus.Unchanged, r.instanceId)
    else (FileStatus.Modified, r.instanceId)

/-- Modelled from the spec: `IndexerDatabase::RemoveFile` (§4.2
`removeRecord`): deletes the record if present and returns whether a record
existed. -/
def removeFile (reg : Registry) (path : String) : Bool × Registry :=
  ((reg.find? (fun e => e.1 == path)).isSome, reg.filter (fun e => e.1 != path))

/-- Modelled from the spec: `IndexerDatabase::AddDicomInstance` (§4.2
`recordDocument`): inserts/overwrites the record for `path`, marking it
recognized with the derived identifier. -/
def addDicomInstance (reg : Registry) (path : String) (time size : Nat)
    (instanceId : String) : Registry :=
  (path, ⟨time, size, some instanceId⟩) :: reg.filter (fun e => e.1 != path)

/-- Modelled from the spec: `IndexerDatabase::AddNonDicomFile` (§4.2
`recordOpaqueFile`): inserts/overwrites the record for `path`, unrecognized. -/
def addNonDicomFile (reg : Registry) (path : String) (time size : Nat) : Registry :=
  (path, ⟨time, size, none⟩) :: reg.filter (fun e => e.1 != path)

/-- Modelled from the spec: §4.2 `lookupByInstanceId`: resolve an instance
identifier back to the path of a recognized registry record. -/
def lookupByInstanceId (reg : Registry) (instanceId : String) : Option String :=
  (reg.find? (fun e => e.2.instanceId == some instanceId)).map (fun e => e.1)

/-- The observable actions `ProcessFile` and `LookupDeletedFiles` perform, in
program order: registry mutations, `RestApiDelete("/instances/" + id)`
(retraction) and `RestApiPost("/instances", ...)` (submission of the bytes). -/
inductive Event where
  | removeFile : String → Event
  | addDicom : String → Nat → Nat → String → Event
  | addNonDicom : String → Nat → Nat → Event
  | retract : String → Event
  | submit : String → Event
deriving DecidableEq, Repr

/-- Recognizer for the two record-inserting events. -/
def Event.isAdd : Event → Bool
  | .addDicom _ _ _ _ => true
  | .addNonDicom _ _ _ => true
  | _ => false

/-- From `src/Sources/Plugin.cpp` line 177: recognition is attempted only on a
non-empty path (`!path.empty() && ComputeInstanceId(instanceId, path)`); the
result of the external DICOM parse/hash on the file's content is the `recog`
parameter. -/
def recogGate (path : String) (recog : Option String) : Option String :=
  if path = "" then none else recog

/-- From `src/Sources/Plugin.cpp` lines 159-243 (`ProcessFile`): the sequence
of observable actions, in program order.  `recog` abstracts the external
recognition of the file's content, `submitOk` whether the `open`/`fstat`/
`mmap` sequence guarding the `RestApiPost` succeeded (on failure the function
returns before submitting). -/
def processFileEvents (reg : Registry) (path : String) (time size : Nat)
    (recog : Option String) (submitOk : Bool) : List Event :=
  let status := (lookupFile reg path time size).1
  let oldId := (lookupFile reg path time size).2
  if status = FileStatus.New ∨ status = FileStatus.Modified then
    (if status = FileStatus.Modified then [Event.removeFile path] else []) ++
    (match recogGate path recog with
     | some instanceId =>
        [Event.addDicom path time size instanceId] ++
        (if status = FileStatus.Modified then [Event.retract (oldId.getD "")] else []) ++
        (if submitOk then [Event.submit path] else [])
     | none =>
        [Event.addNonDicom path time size] ++
        (if status = FileStatus.Modified then [Event.retract (oldId.getD "")] else []))
  else []

/-- Effect of one observable action on the registry; retraction and
submission are REST calls and do not touch the registry. -/
def applyEvent (reg : Registry) : Event → Registry
  | Event.removeFile p => (removeFile reg p).2
  | Event.addDicom p t s instanceId => addDicomInstance reg p t s instanceId
  | Event.addNonDicom p t s => addNonDicomFile reg p t s
  | Event.retract _ => reg
  | Event.submit _ => reg

/-- Registry state after a sequence of actions. -/
def replay (reg : Registry) (evs : List Event) : Registry :=
  evs.foldl applyEvent reg

/-- After filtering out all entries for `path`, the registry has no record
for `path`. -/
theorem lookupRecord_filter_self (reg : Registry) (path : String) :
    lookupRecord (reg.filter (fun e => e.1 != path)) path = none := by
  have h : (reg.filter (fun e => e.1 != path)).find? (fun e => e.1 == path) = none := by
    rw [List.find?_eq_none]
    intro e he
    have h2 := (List.mem_filter.mp he).2
    simp only [bne_iff_ne, ne_eq] at h2
    simp [h2]
  simp [lookupRecord, h]

/-- Inserting a recognized record makes it the record found for its path. -/
theorem lookupRecord_addDicom_self (reg : Registry) (path : String)
    (time size : Nat) (instanceId : String) :
    lookupRecord (addDicomInstance reg path time size instanceId) path =
      some ⟨time, size, some instanceId⟩ := by
  simp [lookupRecord, addDicomInstance, List.find?_cons]

/-- Inserting an opaque record makes it the record found for its path. -/
theorem lookupRecord_addNonDicom_self (reg : Registry) (path : String)
    (time size : Nat) :
    lookupRecord (addNonDicomFile reg path time size) path =
      some ⟨time, size, none⟩ := by
  simp [lookupRecord, addNonDicomFile, List.find?_cons]

/-- C2 counterexample: the claim's ordering is false on the code.  Registry
with one record for path `"p"` carrying identifier `"X"`; the file is seen
again with a changed `modifiedTime` and recognized to `"Y"`.  `ProcessFile`
performs `AddDicomInstance` (the new record) *before* the retraction
`RestApiDelete("/instances/X")` — the trace is `[removeFile, addDicom,
retract, submit]` — so at the moment the single retraction is issued the new
record is already visible via `lookupByInstanceId`, contradicting the claim
that the retraction happens before the new record becomes visible. -/
theorem c2_counterexample :
    processFileEvents [("p", ⟨1, 10, some "X"⟩)] "p" 2 10 (some "Y") true =
      [Event.removeFile "p", Event.addDicom "p" 2 10 "Y",
       Event.retract "X", Event.submit "p"] ∧
    lookupByInstanceId
      (replay [("p", ⟨1, 10, some "X"⟩)]
        ((processFileEvents [("p", ⟨1, 10, some "X"⟩)] "p" 2 10 (some "Y") true).take 2))
      "Y" = some "p" := by
  decide

/-- C2 (amended): for a Modified file whose old record carried identifier
`x`, `ProcessFile` issues exactly one retraction of `x`; it is the third
action of the trace, the new record (recognized or opaque) is inserted as the
second action, and at the moment of the retraction the new record is already
in the registry (insert-before-retract, the order the source documents as
deliberate). -/
theorem c2_retract_after_insert (reg : Registry) (path : String) (time size : Nat)
    (recog : Option String) (submitOk : Bool) (r : FileRecord) (x : String)
    (hrec : lookupRecord reg path = some r)
    (hch : ¬ (r.modifiedTime = time ∧ r.size = size))
    (hid : r.instanceId = some x) :
    (processFileEvents reg path time size recog submitOk).count (Event.retract x) = 1 ∧
    (processFileEvents reg path time size recog submitOk)[2]? = some (Event.retract x) ∧
    (∃ e, (processFileEvents reg path time size recog submitOk)[1]? = some e ∧
      e.isAdd = true) ∧
    (lookupRecord (replay reg ((processFileEvents reg path time size recog submitOk).take 2))
      path).isSome = true := by
  have hlf : lookupFile reg path time size = (FileStatus.Modified, some x) := by
    simp [lookupFile, hrec, hch, hid]
  rcases hgate : recogGate path recog with _ | newId <;> cases submitOk <;>
    simp [processFileEvents, hlf, hgate, replay, applyEvent, List.count_cons,
      Event.isAdd, lookupRecord_addDicom_self, lookupRecord_addNonDicom_self,
      addDicomInstance, addNonDicomFile, removeFile, lookupRecord, List.find?_cons]

/-- Witness for `c2_retract_after_insert` at a concrete input. -/
theorem c2_retract_after_insert_witness :
    (processFileEvents [("p", ⟨1, 10, some "X"⟩)] "p" 2 10 (some "Y") true).count
      (Event.retract "X") = 1 :=
  (c2_retract_after_insert [("p", ⟨1, 10, some "X"⟩)] "p" 2 10 (some "Y") true
    ⟨1, 10, some "X"⟩ "X" (by decide) (by decide) (by decide)).1

/-- C4: for a file classified Modified, `ProcessFile` removes the old record
first (the trace's first action is the removal), inserts the new record
(recognized or opaque) as the second action, issues any retraction only
strictly after the insertion, and — replaying the trace — the registry has no
record for the path between removal and insertion and has the new record from
the insertion on, so at retraction time the logical object is never without a
registry entry. -/
theorem c4_modified_ordering (reg : Registry) (path : String) (time size : Nat)
    (recog : Option String) (submitOk : Bool)
    (hmod : (lookupFile reg path time size).1 = FileStatus.Modified) :
    (processFileEvents reg path time size recog submitOk)[0]? =
      some (Event.removeFile path) ∧
    (∃ e, (processFileEvents reg path time size recog submitOk)[1]? = some e ∧
      e.isAdd = true) ∧
    (∀ j y, (processFileEvents reg path time size recog submitOk)[j]? =
      some (Event.retract y) → 2 ≤ j) ∧
    lookupRecord (replay reg ((processFileEvents reg path time size recog submitOk).take 1))
      path = none ∧
    (lookupRecord (replay reg ((processFileEvents reg path time size recog submitOk).take 2))
      path).isSome = true := by
  rcases hgate : recogGate path recog with _ | newId <;> cases submitOk <;>
    (simp only [processFileEvents, hmod, hgate]
     simp only [reduceIte, List.append_assoc, List.cons_append, List.nil_append,
       List.singleton_append]
     refine ⟨rfl, ⟨_, rfl, rfl⟩, ?_, ?_, ?_⟩
     · intro j y h
       rcases j with _ | _ | j
       · exact absurd h (by simp)
       · exact absurd h (by simp)
       · omega
     · simp only [List.take_succ_cons, List.take_zero, replay, List.foldl_cons,
         List.foldl_nil, applyEvent, removeFile]
       exact lookupRecord_filter_self reg path
     · first
       | exact Option.isSome_iff_exists.mpr
           ⟨_, lookupRecord_addDicom_self _ path time size newId⟩
       | exact Option.isSome_iff_exists.mpr
           ⟨_, lookupRecord_addNonDicom_self _ path time size⟩)

/-- Witness for `c4_modified_ordering` at a concrete input. -/
theorem c4_modified_ordering_witness :
    (processFileEvents [("p", ⟨1, 10, some "X"⟩)] "p" 2 10 (some "Y") true)[0]? =
      some (Event.removeFile "p") :=
  (c4_modified_ordering [("p", ⟨1, 10, some "X"⟩)] "p" 2 10 (some "Y") true
    (by decide)).1

/-- C8: for a file whose `(modifiedTime, size)` pair equals the stored
record's values, `ProcessFile` classifies it Unchanged and performs nothing:
the trace is empty (no registry mutation, no upload, no retraction) and the
registry is left exactly as it was. -/
theorem c8_unchanged_is_noop (reg : Registry) (path : String) (time size : Nat)
    (recog : Option String) (submitOk : Bool) (r : FileRecord)
    (hrec : lookupRecord reg path = some r)
    (ht : r.modifiedTime = time) (hs : r.size = size) :
    processFileEvents reg path time size recog submitOk = [] ∧
    replay reg (processFileEvents reg path time size recog submitOk) = reg := by
  have hlf : lookupFile reg path time size = (FileStatus.Unchanged, r.instanceId) := by
    simp [lookupFile, hrec, ht, hs]
  constructor
  · simp [processFileEvents, hlf]
  · simp [processFileEvents, hlf, replay]

/-- Witness for `c8_unchanged_is_noop` at a concrete input. -/
theorem c8_unchanged_is_noop_witness :
    processFileEvents [("p", ⟨1, 10, some "X"⟩)] "p" 1 10 none true = [] :=
  (c8_unchanged_is_noop [("p", ⟨1, 10, some "X"⟩)] "p" 1 10 none true
    ⟨1, 10, some "X"⟩ (by decide) rfl rfl).1

/-- From `src/Sources/Plugin.cpp` lines 248-265 (the `Visitor` of
`LookupDeletedFiles`): collect, in enumeration order, the
`(path, instanceId)` pairs of the recognized records whose path is no longer
a regular file on disk.  `onDisk` abstracts
`Orthanc::SystemToolbox::IsRegularFile`. -/
def deletedDicomList (reg : Registry) (onDisk : String → Bool) :
    List (String × String) :=
  (reg.filter (fun e => !onDisk e.1 && e.2.instanceId.isSome)).map
    (fun e => (e.1, e.2.instanceId.getD ""))

/-- From `src/Sources/Plugin.cpp` lines 267-280 (`Visitor::ExecuteDelete`):
for each collected pair in order, `RemoveFile(path)`; if the removal reported
that a record existed, retract the instance
(`RestApiDelete("/instances/" + instanceId)`). -/
def executeDelete : Registry → List (String × String) → Registry × List Event
  | reg, [] => (reg, [])
  | reg, (path, instanceId) :: rest =>
    let rem := removeFile reg path
    let next := executeDelete rem.2 rest
    (next.1, (if rem.1 then [Event.retract instanceId] else []) ++ next.2)

/-- From `src/Sources/Plugin.cpp` lines 246-286 (`LookupDeletedFiles`):
`database_.Apply(visitor)` followed by `visitor.ExecuteDelete()`. -/
def lookupDeletedFiles (reg : Registry) (onDisk : String → Bool) :
    Registry × List Event :=
  executeDelete reg (deletedDicomList reg onDisk)

/-- A registry has no record for `path` exactly when no entry carries it. -/
theorem lookupRecord_eq_none (reg : Registry) (path : String) :
    lookupRecord reg path = none ↔ ∀ e ∈ reg, e.1 ≠ path := by
  simp [lookupRecord, List.find?_eq_none]

/-- `ExecuteDelete` only ever removes registry entries. -/
theorem executeDelete_state_sublist (l : List (String × String)) :
    ∀ reg : Registry, ((executeDelete reg l).1).Sublist reg := by
  induction l with
  | nil =>
    intro reg
    simp [executeDelete]
  | cons hd tl ih =>
    intro reg
    obtain ⟨q, y⟩ := hd
    exact (ih (removeFile reg q).2).trans (List.filter_sublist reg)

/-- A path present in the work list has no registry record left after
`ExecuteDelete`. -/
theorem executeDelete_removes (l : List (String × String)) :
    ∀ (reg : Registry) (path instanceId : String), (path, instanceId) ∈ l →
      lookupRecord ((executeDelete reg l).1) path = none := by
  induction l with
  | nil =>
    intro reg path instanceId hmem
    simp at hmem
  | cons hd tl ih =>
    intro reg path instanceId hmem
    obtain ⟨q, y⟩ := hd
    rcases List.mem_cons.mp hmem with heq | htl
    · obtain ⟨rfl, rfl⟩ := Prod.ext_iff.mp heq
      have hall : ∀ e ∈ ((executeDelete (removeFile reg path).2 tl).1), e.1 ≠ path := by
        intro e he
        have hmem2 := (executeDelete_state_sublist tl (removeFile reg path).2).subset he
        have h2 := (List.mem_filter.mp hmem2).2
        simpa using h2
      exact (lookupRecord_eq_none _ path).mpr hall
    · exact ih (removeFile reg q).2 path instanceId htl

/-- `find?` commutes with a `filter` that keeps every hit of the search. -/
theorem find?_filter_of_imp {α : Type _} (l : List α) (p q : α → Bool)
    (h : ∀ a, p a = true → q a = true) :
    (l.filter q).find? p = l.find? p := by
  induction l with
  | nil => rfl
  | cons a t ih =>
    by_cases hq : q a = true
    · rw [List.filter_cons_of_pos hq]
      by_cases hp : p a = true
      · rw [List.find?_cons_of_pos _ hp, List.find?_cons_of_pos _ hp]
      · rw [List.find?_cons_of_neg _ (by simp [hp]), List.find?_cons_of_neg _ (by simp [hp])]
        exact ih
    · have hp : ¬ p a = true := fun hc => hq (h a hc)
      rw [List.filter_cons_of_neg (by simp [hq]), List.find?_cons_of_neg _ (by simp [hp])]
      exact ih

/-- Removing another path leaves the lookup of `path` unchanged. -/
theorem lookupRecord_removeFile_ne (reg : Registry) (q path : String)
    (h : q ≠ path) :
    lookupRecord ((removeFile reg q).2) path = lookupRecord reg path := by
  unfold lookupRecord removeFile
  rw [find?_filter_of_imp]
  intro e he
  have : e.1 = path := by simpa using he
  simp [this, bne_iff_ne]
  exact fun hc => h hc.symm

/-- If no pending pair carries identifier `x`, `ExecuteDelete` retracts `x`
zero times. -/
theorem executeDelete_count_zero (x : String) (l : List (String × String)) :
    ∀ reg : Registry, (∀ e ∈ l, e.2 ≠ x) →
      ((executeDelete reg l).2).count (Event.retract x) = 0 := by
  induction l with
  | nil =>
    intro reg _
    simp [executeDelete]
  | cons hd tl ih =>
    intro reg h
    obtain ⟨q, y⟩ := hd
    have hy : y ≠ x := h (q, y) (by simp)
    have htl : ∀ e ∈ tl, e.2 ≠ x := fun e he => h e (List.mem_cons_of_mem _ he)
    cases hrem : (removeFile reg q).1 <;>
      simp [executeDelete, hrem, List.count_cons, ih _ htl, hy]

/-- If exactly one pending pair carries identifier `x` — the pair
`(path, x)` — the work list has pairwise-distinct paths, and the registry
still holds a record for `path`, then `ExecuteDelete` retracts `x` exactly
once. -/
theorem executeDelete_count_one (x path : String) (l : List (String × String)) :
    ∀ reg : Registry,
      (l.map Prod.fst).Nodup →
      (path, x) ∈ l →
      (∀ e ∈ l, e.2 = x → e = (path, x)) →
      (lookupRecord reg path).isSome = true →
      ((executeDelete reg l).2).count (Event.retract x) = 1 := by
  induction l with
  | nil =>
    intro reg _ hmem
    simp at hmem
  | cons hd tl ih =>
    intro reg hnodup hmem huniq hsome
    obtain ⟨q, y⟩ := hd
    by_cases hhd : (q, y) = (path, x)
    · obtain ⟨rfl, rfl⟩ := Prod.ext_iff.mp hhd
      have hrem : (removeFile reg q).1 = true := by
        have := hsome
        simpa [lookupRecord, removeFile, Option.isSome_map] using this
      have htl : ∀ e ∈ tl, e.2 ≠ y := by
        intro e he hex
        have heq := huniq e (List.mem_cons_of_mem _ he) hex
        subst heq
        have : q ∈ tl.map Prod.fst := List.mem_map.mpr ⟨(q, y), he, rfl⟩
        exact (List.nodup_cons.mp (by simpa using hnodup)).1 this
      simp [executeDelete, hrem, List.count_cons,
        executeDelete_count_zero y tl _ htl]
    · have hmemtl : (path, x) ∈ tl := by
        rcases List.mem_cons.mp hmem with heq | htl
        · exact absurd heq.symm hhd
        · exact htl
      have hqpath : q ≠ path := by
        intro hc
        subst hc
        have : q ∈ tl.map Prod.fst := List.mem_map.mpr ⟨(q, x), hmemtl, rfl⟩
        exact (List.nodup_cons.mp (by simpa using hnodup)).1 this
      have hyx : y ≠ x := by
        intro hc
        subst hc
        exact hhd (huniq (q, y) (List.mem_cons_self _ _) (by rfl))
      have hsome2 : (lookupRecord (removeFile reg q).2 path).isSome = true := by
        rw [lookupRecord_removeFile_ne reg q path hqpath]
        exact hsome
      have hcount := ih (removeFile reg q).2
        ((List.nodup_cons.mp (by simpa using hnodup)).2)
        hmemtl
        (fun e he hex => huniq e (List.mem_cons_of_mem _ he) hex)
        hsome2
      cases hrem : (removeFile reg q).1 <;>
        simp [executeDelete, hrem, List.count_cons, hcount, hyx]

/-- C7: one deletion-sweep pass over a registry with at most one record per
path and at most one recognized record per identifier (the spec's §3
invariants): a tracked recognized record whose path no longer exists on disk
loses its registry record and its identifier is retracted exactly once. -/
theorem c7_deletion_sweep (reg : Registry) (onDisk : String → Bool)
    (path : String) (r : FileRecord) (x : String)
    (hnodup : (reg.map Prod.fst).Nodup)
    (hrec : lookupRecord reg path = some r)
    (hx : r.instanceId = some x)
    (hgone : onDisk path = false)
    (huniq : ∀ e ∈ reg, e.2.instanceId = some x → e.1 = path) :
    lookupRecord (lookupDeletedFiles reg onDisk).1 path = none ∧
    ((lookupDeletedFiles reg onDisk).2).count (Event.retract x) = 1 := by
  obtain ⟨e0, hfind⟩ : ∃ e0, reg.find? (fun e => e.1 == path) = some e0 := by
    rcases hf : reg.find? (fun e => e.1 == path) with _ | e0
    · simp [lookupRecord, hf] at hrec
    · exact ⟨e0, hf⟩
  have he0mem : e0 ∈ reg := List.mem_of_find?_eq_some hfind
  have he0path : e0.1 = path := by
    have := List.find?_some hfind
    simpa using this
  have he0rec : e0.2 = r := by
    have : (reg.find? (fun e => e.1 == path)).map (fun e => e.2) = some r := hrec
    rw [hfind] at this
    simpa using this
  have hmem : (path, x) ∈ deletedDicomList reg onDisk := by
    refine List.mem_map.mpr ⟨e0, List.mem_filter.mpr ⟨he0mem, ?_⟩, ?_⟩
    · simp [he0path, he0rec, hgone, hx]
    · simp [he0path, he0rec, hx]
  have hsubfst : ((deletedDicomList reg onDisk).map Prod.fst).Sublist
      (reg.map Prod.fst) := by
    simp only [deletedDicomList, List.map_map]
    exact (List.filter_sublist reg).map Prod.fst
  have hnodupl : ((deletedDicomList reg onDisk).map Prod.fst).Nodup :=
    hnodup.sublist hsubfst
  have huniql : ∀ e ∈ deletedDicomList reg onDisk, e.2 = x → e = (path, x) := by
    intro e he hex
    obtain ⟨e1, he1, heq⟩ := List.mem_map.mp he
    obtain ⟨he1mem, he1cond⟩ := List.mem_filter.mp he1
    have hids : e1.2.instanceId.isSome = true := by
      have := he1cond
      simp only [Bool.and_eq_true] at this
      exact this.2
    obtain ⟨z, hz⟩ := Option.isSome_iff_exists.mp hids
    have hgd : e1.2.instanceId.getD "" = x := (congrArg Prod.snd heq).trans hex
    have hzx : z = x := by simpa [hz] using hgd
    have he1path : e1.1 = path := huniq e1 he1mem (hzx ▸ hz)
    rw [← heq, he1path]
    simp [hz, hzx]
  have hsome : (lookupRecord reg path).isSome = true := by
    simp [hrec]
  exact ⟨executeDelete_removes _ reg path x hmem,
    executeDelete_count_one x path _ reg hnodupl hmem huniql hsome⟩

/-- Witness for `c7_deletion_sweep` at a concrete input. -/
theorem c7_deletion_sweep_witness :
    lookupRecord (lookupDeletedFiles [("p", ⟨1, 10, some "X"⟩)] (fun _ => false)).1
      "p" = none :=
  (c7_deletion_sweep [("p", ⟨1, 10, some "X"⟩)] (fun _ => false) "p"
    ⟨1, 10, some "X"⟩ "X" (by decide) (by decide) (by decide) rfl
    (by decide)).1

/-- Orthanc attachment content types: only the DICOM tag
(`OrthancPluginContentType_Dicom`) participates in virtualization. -/
inductive ContentType where
  | Dicom
  | Other
deriving DecidableEq, Repr

/-- State shared by the storage callbacks: the file registry, the attachment
links (`uuid → instanceId`, the spec's `AttachmentLink` table kept by
`IndexerDatabase`) and the internal physical store (`uuid → bytes`, the
`StorageArea`). -/
structure StorageState where
  registry : Registry
  attachments : List (String × String)
  store : List (String × List Nat)
deriving DecidableEq, Repr

/-- The raw attachment link held for `uuid`, if any. -/
def linkFor (st : StorageState) (uuid : String) : Option String :=
  (st.attachments.find? (fun e => e.1 == uuid)).map (fun e => e.2)

/-- Modelled from the spec: `IndexerDatabase::AddAttachment(uuid, instanceId)`
(§4.4 `create`): succeeds — inserting the link — exactly when the identifier
matches a record the FileRegistry tracks as living on an external, indexed
path; reports whether it did. -/
def addAttachment (reg : Registry) (att : List (String × String))
    (uuid instanceId : String) : Bool × List (String × String) :=
  if (lookupByInstanceId reg instanceId).isSome then
    (true, (uuid, instanceId) :: att)
  else
    (false, att)

/-- Modelled from the spec: `IndexerDatabase::LookupAttachment(externalPath,
uuid)` (§3 `AttachmentLink`): resolve the link's `instanceId` back to the
`FileRecord.path` through the registry. -/
def lookupAttachment (st : StorageState) (uuid : String) : Option String :=
  (st.attachments.find? (fun e => e.1 == uuid)).bind
    (fun e => lookupByInstanceId st.registry e.2)

/-- Modelled from the spec: `IndexerDatabase::RemoveAttachment(uuid)` (§4.4
`remove`): always removes any attachment link for `uuid`. -/
def removeAttachmentDb (att : List (String × String)) (uuid : String) :
    List (String × String) :=
  att.filter (fun e => e.1 != uuid)

/-- Modelled from the spec: `StorageArea::Create(uuid, content, size)`:
stores the bytes physically in the internal store under `uuid`. -/
def storageAreaCreate (store : List (String × List Nat)) (uuid : String)
    (content : List Nat) : List (String × List Nat) :=
  (uuid, content) :: store

/-- Modelled from the spec: `StorageArea::RemoveAttachment(uuid)`: removes
the physical object stored under `uuid` from the internal store. -/
def storageAreaRemove (store : List (String × List Nat)) (uuid : String) :
    List (String × List Nat) :=
  store.filter (fun e => e.1 != uuid)

/-- From `src/Sources/Plugin.cpp` lines 429-435 (`LookupExternalDicom`):
an external path is resolved only for the DICOM content type. -/
def lookupExternalDicom (st : StorageState) (uuid : String) (ty : ContentType) :
    Option String :=
  if ty = ContentType.Dicom then lookupAttachment st uuid else none

/-- From `src/Sources/Plugin.cpp` lines 385-425 (`StorageCreate`): when the
content type is DICOM, the bytes are recognized (`ComputeInstanceId` on the
buffer, abstracted by `recog`) and `AddAttachment` succeeds, only the link is
kept; in every other case the bytes are stored physically
(`storageArea_->Create`). -/
def storageCreate (st : StorageState) (uuid : String) (content : List Nat)
    (ty : ContentType) (recog : Option String) : StorageState :=
  match ty, recog with
  | ContentType.Dicom, some instanceId =>
    match addAttachment st.registry st.attachments uuid instanceId with
    | (true, att) => { st with attachments := att }
    | (false, att) =>
      { st with
        attachments := att
        store := storageAreaCreate st.store uuid content }
  | _, _ => { st with store := storageAreaCreate st.store uuid content }

/-- From `src/Sources/Plugin.cpp` lines 504-531 (`StorageRemove`): if
`LookupExternalDicom` resolves, only `RemoveAttachment` on the database;
otherwise `RemoveAttachment` on the database and on the storage area. -/
def storageRemove (st : StorageState) (uuid : String) (ty : ContentType) :
    StorageState :=
  if (lookupExternalDicom st uuid ty).isSome then
    { st with attachments := removeAttachmentDb st.attachments uuid }
  else
    { st with
      attachments := removeAttachmentDb st.attachments uuid
      store := storageAreaRemove st.store uuid }

/-- After filtering out the key, no entry with that key is found. -/
theorem find?_bne_filter_eq_none {β : Type _} (l : List (String × β)) (uuid : String) :
    (l.filter (fun e => e.1 != uuid)).find? (fun e => e.1 == uuid) = none := by
  rw [List.find?_eq_none]
  intro e he
  have h2 := (List.mem_filter.mp he).2
  simpa using h2

/-- Removing an absent key from the internal store is the identity. -/
theorem storageAreaRemove_absent (store : List (String × List Nat)) (uuid : String)
    (h : store.find? (fun e => e.1 == uuid) = none) :
    storageAreaRemove store uuid = store := by
  unfold storageAreaRemove
  rw [List.filter_eq_self]
  intro a ha
  have := List.find?_eq_none.mp h a ha
  simpa using this

/-- Both branches of `StorageRemove` remove any attachment link for `uuid`. -/
theorem storageRemove_attachments (st : StorageState) (uuid : String)
    (ty : ContentType) :
    (storageRemove st uuid ty).attachments = removeAttachmentDb st.attachments uuid := by
  unfold storageRemove
  split <;> rfl

/-- `StorageRemove` never touches the registry. -/
theorem storageRemove_registry (st : StorageState) (uuid : String)
    (ty : ContentType) :
    (storageRemove st uuid ty).registry = st.registry := by
  unfold storageRemove
  split <;> rfl

/-- C5: `StorageCreate` stores only a link exactly when the content type is
DICOM, the bytes are recognized to an identifier, and that identifier matches
a record the FileRegistry tracks as an external indexed file
(`lookupByInstanceId` resolves); in every other case the bytes are stored
physically in the internal store under the uuid and the link table is left
unchanged. -/
theorem c5_create_virtualizes (st : StorageState) (uuid : String)
    (content : List Nat) (ty : ContentType) (recog : Option String) :
    ((∃ instanceId, ty = ContentType.Dicom ∧ recog = some instanceId ∧
        (lookupByInstanceId st.registry instanceId).isSome = true) →
      ∃ instanceId, recog = some instanceId ∧
        storageCreate st uuid content ty recog =
          { st with attachments := (uuid, instanceId) :: st.attachments }) ∧
    ((¬ ∃ instanceId, ty = ContentType.Dicom ∧ recog = some instanceId ∧
        (lookupByInstanceId st.registry instanceId).isSome = true) →
      storageCreate st uuid content ty recog =
        { st with store := (uuid, content) :: st.store }) := by
  constructor
  · rintro ⟨instanceId, rfl, rfl, hsome⟩
    refine ⟨instanceId, rfl, ?_⟩
    simp [storageCreate, addAttachment, hsome]
  · intro hneg
    match ty, recog with
    | ContentType.Dicom, some instanceId =>
      have hnone : (lookupByInstanceId st.registry instanceId).isSome = false := by
        rcases hb : (lookupByInstanceId st.registry instanceId).isSome with _ | _
        · rfl
        · exact absurd ⟨instanceId, rfl, rfl, hb⟩ hneg
      simp [storageCreate, addAttachment, hnone, storageAreaCreate]
    | ContentType.Dicom, none =>
      simp [storageCreate, storageAreaCreate]
    | ContentType.Other, _ =>
      simp [storageCreate, storageAreaCreate]

/-- Witness for `c5_create_virtualizes` at a concrete input. -/
theorem c5_create_virtualizes_witness :
    ∃ instanceId, (some "X" : Option String) = some instanceId ∧
      storageCreate ⟨[("p", ⟨1, 10, some "X"⟩)], [], []⟩ "u" [7]
          ContentType.Dicom (some "X") =
        { registry := [("p", ⟨1, 10, some "X"⟩)]
          attachments := [("u", instanceId)]
          store := [] } :=
  (c5_create_virtualizes ⟨[("p", ⟨1, 10, some "X"⟩)], [], []⟩ "u" [7]
    ContentType.Dicom (some "X")).1 ⟨"X", rfl, rfl, by decide⟩

/-- C6: `StorageRemove` always removes any attachment link for the uuid; when
no link existed it additionally removes the physical object from the internal
store; when a link existed the internal store is left untouched.  The
hypothesis is the spec's own §4.4 invariant that a linked object was never
physically stored. -/
theorem c6_remove_link_then_store (st : StorageState) (uuid : String)
    (ty : ContentType)
    (hdisj : linkFor st uuid ≠ none →
      st.store.find? (fun e => e.1 == uuid) = none) :
    linkFor (storageRemove st uuid ty) uuid = none ∧
    (linkFor st uuid = none →
      (storageRemove st uuid ty).store = storageAreaRemove st.store uuid) ∧
    (linkFor st uuid ≠ none → (storageRemove st uuid ty).store = st.store) := by
  refine ⟨?_, ?_, ?_⟩
  · unfold linkFor
    rw [storageRemove_attachments]
    rw [show removeAttachmentDb st.attachments uuid =
      st.attachments.filter (fun e => e.1 != uuid) from rfl]
    rw [find?_bne_filter_eq_none]
    rfl
  · intro hnone
    have hfind : st.attachments.find? (fun e => e.1 == uuid) = none := by
      have := hnone
      unfold linkFor at this
      exact Option.map_eq_none'.mp this
    have hext : lookupExternalDicom st uuid ty = none := by
      unfold lookupExternalDicom lookupAttachment
      rw [hfind]
      split <;> rfl
    unfold storageRemove
    rw [hext]
    rfl
  · intro hsome
    have hstore := hdisj hsome
    unfold storageRemove
    split
    · rfl
    · exact storageAreaRemove_absent st.store uuid hstore

/-- Witness for `c6_remove_link_then_store` at a concrete input. -/
theorem c6_remove_link_then_store_witness :
    linkFor (storageRemove ⟨[], [("u", "X")], []⟩ "u" ContentType.Dicom) "u" = none :=
  (c6_remove_link_then_store ⟨[], [("u", "X")], []⟩ "u" ContentType.Dicom
    (fun _ => rfl)).1

/-- If a state holds neither a link nor a physical object for `uuid`,
`StorageRemove` is the identity on it. -/
theorem storageRemove_of_absent (st : StorageState) (uuid : String)
    (ty : ContentType)
    (hfind : st.attachments.find? (fun e => e.1 == uuid) = none)
    (hstore : st.store.find? (fun e => e.1 == uuid) = none) :
    storageRemove st uuid ty = st := by
  have hext : lookupExternalDicom st uuid ty = none := by
    unfold lookupExternalDicom lookupAttachment
    rw [hfind]
    split <;> rfl
  have ha : removeAttachmentDb st.attachments uuid = st.attachments := by
    unfold removeAttachmentDb
    rw [List.filter_eq_self]
    intro a haa
    have := List.find?_eq_none.mp hfind a haa
    simpa using this
  have hs : storageAreaRemove st.store uuid = st.store :=
    storageAreaRemove_absent st.store uuid hstore
  unfold storageRemove
  rw [hext]
  simp [ha, hs]

/-- C9: removal is idempotent.  After one `StorageRemove` the uuid has
neither a link (both branches filter the link table) nor — given the spec's
§4.4 invariant that a linked object was never physically stored — a physical
object, so a second `StorageRemove` of the same uuid with the same content
type changes nothing: the state after two calls equals the state after one,
with no double removal of the physical object (and `StorageRemove` contains
no retraction call at all). -/
theorem c9_remove_idempotent (st : StorageState) (uuid : String)
    (ty : ContentType)
    (hdisj : linkFor st uuid ≠ none →
      st.store.find? (fun e => e.1 == uuid) = none) :
    storageRemove (storageRemove st uuid ty) uuid ty = storageRemove st uuid ty := by
  apply storageRemove_of_absent
  · rw [storageRemove_attachments]
    exact find?_bne_filter_eq_none st.attachments uuid
  · unfold storageRemove
    by_cases hc : (lookupExternalDicom st uuid ty).isSome = true
    · rw [if_pos hc]
      have hla : (lookupAttachment st uuid).isSome = true := by
        unfold lookupExternalDicom at hc
        by_cases hty : ty = ContentType.Dicom
        · rw [if_pos hty] at hc
          exact hc
        · rw [if_neg hty] at hc
          simp at hc
      have hfind : (st.attachments.find? (fun e => e.1 == uuid)).isSome = true := by
        unfold lookupAttachment at hla
        rcases h : st.attachments.find? (fun e => e.1 == uuid) with _ | e
        · rw [h] at hla
          simp at hla
        · rw [h]
          rfl
      have hlf : linkFor st uuid ≠ none := by
        unfold linkFor
        simp only [ne_eq, Option.map_eq_none']
        exact Option.isSome_iff_ne_none.mp hfind
      exact hdisj hlf
    · rw [if_neg hc]
      exact find?_bne_filter_eq_none st.store uuid

/-- Witness for `c9_remove_idempotent` at a concrete input. -/
theorem c9_remove_idempotent_witness :
    storageRemove (storageRemove ⟨[], [("u", "X")], []⟩ "u" ContentType.Dicom)
        "u" ContentType.Dicom =
      storageRemove ⟨[], [("u", "X")], []⟩ "u" ContentType.Dicom :=
  c9_remove_idempotent ⟨[], [("u", "X")], []⟩ "u" ContentType.Dicom
    (fun _ => rfl)

/-- The four identifier fields `ComputeInstanceId` reads from a parsed DICOM
dataset (`src/Sources/Plugin.cpp` lines 63-83): a field is `none` when the
corresponding `findAndGetString` call returns a bad `OFCondition`. -/
structure DcmDataset where
  patientId : Option String
  studyInstanceUid : Option String
  seriesInstanceUid : Option String
  sopInstanceUid : Option String
deriving DecidableEq, Repr

/-- From `src/Sources/Plugin.cpp` lines 56-114 (`ComputeInstanceId`):
recognition fails exactly when any of StudyInstanceUID, SeriesInstanceUID or
SOPInstanceUID cannot be read (`code2.bad() || code3.bad() || code4.bad()`);
a missing PatientID is replaced by the empty string (`PATIENT_ID_ptr = NULL;
PATIENT_ID_len = 0`, whence an empty `std::string`); otherwise the identifier
is derived from the four strings by `Orthanc::DicomInstanceHasher` (an
external collaborator, abstracted by the `hashInstance` parameter). -/
def computeInstanceId
    (hashInstance : String → String → String → String → String)
    (ds : DcmDataset) : Option String :=
  match ds.studyInstanceUid, ds.seriesInstanceUid, ds.sopInstanceUid with
  | some study, some series, some sop =>
    some (hashInstance (ds.patientId.getD "") study series sop)
  | _, _, _ => none

/-- C10: recognition fails exactly when one of the three UID fields cannot be
read; a missing PatientID does not cause failure — it is replaced by the
empty string and the identifier is still derived. -/
theorem c10_recognition_fields
    (hashInstance : String → String → String → String → String)
    (ds : DcmDataset) :
    ((computeInstanceId hashInstance ds).isSome = true ↔
      ds.studyInstanceUid.isSome = true ∧ ds.seriesInstanceUid.isSome = true ∧
        ds.sopInstanceUid.isSome = true) ∧
    (∀ study series sop, ds.patientId = none →
      ds.studyInstanceUid = some study →
      ds.seriesInstanceUid = some series →
      ds.sopInstanceUid = some sop →
      computeInstanceId hashInstance ds =
        some (hashInstance "" study series sop)) := by
  constructor
  · obtain ⟨pat, study, series, sop⟩ := ds
    rcases study with _ | study <;> rcases series with _ | series <;>
      rcases sop with _ | sop <;> simp [computeInstanceId]
  · intro study series sop hpat hst hse hso
    simp [computeInstanceId, hst, hse, hso, hpat]

/-- Witness for `c10_recognition_fields` at a concrete input. -/
theorem c10_recognition_fields_witness :
    computeInstanceId (fun p study series sop => p ++ study ++ series ++ sop)
        ⟨none, some "1.2", some "3.4", some "5.6"⟩ =
      some ("" ++ "1.2" ++ "3.4" ++ "5.6") :=
  (c10_recognition_fields (fun p study series sop => p ++ study ++ series ++ sop)
    ⟨none, some "1.2", some "3.4", some "5.6"⟩).2 "1.2" "3.4" "5.6" rfl rfl rfl rfl
